import Mathlib

/-!
# Verification of the ODSC West 2020 Bayesian-inference notebook

Shallow embedding of the repository's single notebook
`src/ODSC_West_2020/intro_Bayesian_PyMC3_ODSC_Oct_2020.ipynb`.

The notebook defines four pieces of original deterministic logic:
`subtract`, `make_random_OLS_data`, `generate_hierarchical_data` and `RMSE`.
All calls to `np.random.*` are modelled by passing the drawn values in as
explicit inputs (arrays become `List ℝ`, per-group draws become functions
`ℕ → ℝ`).  NumPy column vectors of shape `(m, 1)` are embedded as flat
lists of length `m`.  The notebook's cell sequence, its sampler call
sites and its externally observable effects are transcribed as concrete
Lean data so that structural claims about the notebook can be decided.
-/

namespace ODSCNotebook

/-! ## Pure functions defined by the notebook -/

/-- Cell 11: `def subtract(x, y): return x - y`. -/
def subtract (x y : ℝ) : ℝ := x - y

/-- Cell 11: `det_1 = pm.Deterministic("Delta", subtract(stochastic_1, stochastic_2))`.
The deterministic node `Delta` is the fixed function `subtract` of the two
uniform stochastic variables `U_1` and `U_2`. -/
def Delta (u1 u2 : ℝ) : ℝ := subtract u1 u2

/-- Cell 30: `make_random_OLS_data(num_obs, intercept, beta)`.
The two normal draws `X = np.random.normal(1.0, 0.1, num_obs)` and
`epsilon = np.random.normal(0.0, 0.1, num_obs)` are modelled as input
lists; the function then computes `y = intercept + (beta*X) + epsilon`
elementwise and returns the pair `(X, y)`. -/
def make_random_OLS_data (num_obs : ℕ) (intercept beta : ℝ)
    (X epsilon : List ℝ) : List ℝ × List ℝ :=
  (X, List.zipWith (fun x e => intercept + beta * x + e) X epsilon)

/-- Cell 40 loop body, one block per group: the loop
`for i, group in enumerate(group_lvl_params)` writes rows
`i*n .. i*n + n - 1` of each preallocated array; since the slices are
disjoint and cover the whole zero-initialised array, the final array is
the concatenation of the per-group blocks, each of length
`n = num_obs_per_group`. -/
def blocks {α : Type} (n : ℕ) (h : ℕ → ℕ → α) : ℕ → List α
  | 0 => []
  | g + 1 => blocks n h g ++ (List.range n).map (h g)

/-- Cell 40: `generate_hierarchical_data(num_obs_per_group, num_groups,
pop_intercept, pop_beta, pop_sd)`.  The per-group draws
`intercept_grp = np.random.normal(pop_intercept, pop_sd)` and
`beta_grp = np.random.normal(pop_beta, pop_sd)` are modelled by the input
functions `interceptDraw`/`betaDraw` (the population parameters only feed
those draws, so they do not occur in the deterministic part), and the
per-observation draw `indiv_epsilon = np.random.normal(0.0, 0.01, n)` of
group `i` is modelled by `fun j => eps i j`.  Per group `i` the code sets
`y = group[1]*indiv_epsilon + group[0]`, writes `indiv_epsilon` into `X`,
`i` into `group_id` and `y` into `Y`.  Returns `(X, Y, group_id)`. -/
def generate_hierarchical_data (num_obs_per_group num_groups : ℕ)
    (pop_intercept pop_beta pop_sd : ℝ)
    (interceptDraw betaDraw : ℕ → ℝ) (eps : ℕ → ℕ → ℝ) :
    List ℝ × List ℝ × List ℝ :=
  let group_lvl_params : List (ℝ × ℝ) :=
    (List.range num_groups).map fun k => (interceptDraw k, betaDraw k)
  let X := blocks num_obs_per_group (fun i j => eps i j) num_groups
  let Y := blocks num_obs_per_group
    (fun i j => (group_lvl_params.getD i (0, 0)).2 * eps i j
      + (group_lvl_params.getD i (0, 0)).1) num_groups
  let group_id := blocks num_obs_per_group (fun i _ => (i : ℝ)) num_groups
  (X, Y, group_id)

/-- Cell 40: `def RMSE(Y, y_hat): return np.sqrt(np.mean((y_hat - Y) ** 2.0))`.
`np.mean` divides the sum of the elementwise squared differences by the
length of the difference array. -/
noncomputable def RMSE (Y y_hat : List ℝ) : ℝ :=
  Real.sqrt ((List.zipWith (fun a b => (b - a) ^ 2) Y y_hat).sum /
    (List.zipWith (fun a b => (b - a) ^ 2) Y y_hat).length)

/-- Reference definition written from the spec's words only: the square
root of the mean of the squared differences of paired entries, where the
mean of a list is its sum divided by its length.  Used to check the
notebook's `RMSE` against an independent reference. -/
noncomputable def mean_ref (l : List ℝ) : ℝ := l.sum / l.length

/-- Reference RMSE, from the spec's formula `sqrt(mean((y_hat - Y)^2))`. -/
noncomputable def RMSE_ref (Y y_hat : List ℝ) : ℝ :=
  Real.sqrt (mean_ref ((Y.zip y_hat).map fun p => (p.2 - p.1) ^ 2))

/-! ## Indexing helpers -/

theorem getD_zipWith (f : ℝ → ℝ → ℝ) (d : ℝ) :
    ∀ (l₁ l₂ : List ℝ) (i : ℕ), i < l₁.length → i < l₂.length →
      (List.zipWith f l₁ l₂).getD i d = f (l₁.getD i d) (l₂.getD i d) := by
  intro l₁
  induction l₁ with
  | nil => intro l₂ i h₁ _; exact absurd h₁ (by simp)
  | cons a l₁ ih =>
    intro l₂ i h₁ h₂
    cases l₂ with
    | nil => exact absurd h₂ (by simp)
    | cons b l₂ =>
      cases i with
      | zero => rfl
      | succ i =>
        simpa using ih l₂ i (by simpa using h₁) (by simpa using h₂)

theorem length_blocks {α : Type} (n : ℕ) (h : ℕ → ℕ → α) :
    ∀ g, (blocks n h g).length = g * n := by
  intro g
  induction g with
  | zero => simp [blocks]
  | succ g ih => simp [blocks, ih, Nat.succ_mul]

theorem getElem?_blocks {α : Type} (n : ℕ) (h : ℕ → ℕ → α) :
    ∀ (g i j : ℕ), i < g → j < n →
      (blocks n h g)[i * n + j]? = some (h i j) := by
  intro g
  induction g with
  | zero => intro i j hi _; exact absurd hi (Nat.not_lt_zero i)
  | succ g ih =>
    intro i j hi hj
    rcases Nat.lt_succ_iff_lt_or_eq.mp hi with hlt | rfl
    · have hbound : i * n + j < (blocks n h g).length := by
        rw [length_blocks]
        calc i * n + j < i * n + n := Nat.add_lt_add_left hj _
          _ = (i + 1) * n := (Nat.succ_mul i n).symm
          _ ≤ g * n := Nat.mul_le_mul_right n hlt
      rw [blocks, List.getElem?_append, if_pos hbound]
      exact ih i j hlt hj
    · rw [blocks,
        List.getElem?_append_right
          (by rw [length_blocks]; exact Nat.le_add_right _ _)]
      rw [length_blocks]
      have hsub : i * n + j - i * n = j := by omega
      rw [hsub, List.getElem?_map, List.getElem?_range hj]
      rfl

theorem getD_blocks {α : Type} [Inhabited α] (n : ℕ) (h : ℕ → ℕ → α)
    (g i j : ℕ) (hi : i < g) (hj : j < n) (d : α) :
    (blocks n h g).getD (i * n + j) d = h i j := by
  rw [List.getD_eq_getElem?_getD, getElem?_blocks n h g i j hi hj]
  rfl

theorem group_params_getD (num_groups : ℕ) (interceptDraw betaDraw : ℕ → ℝ)
    (i : ℕ) (hi : i < num_groups) :
    (((List.range num_groups).map
        fun k => (interceptDraw k, betaDraw k)).getD i (0, 0)) =
      (interceptDraw i, betaDraw i) := by
  rw [List.getD_eq_getElem?_getD, List.getElem?_map, List.getElem?_range hi]
  rfl

/-! ## Transcription of the notebook's sampler call sites

Every call to `pm.sample` / `pm.sample_ppc` in the notebook, with its
arguments.  A keyword argument carries its keyword; the only non-numeric
arguments anywhere are the trace object and the model object. -/

inductive SamplerFn
  | sample
  | sample_ppc
deriving DecidableEq

inductive SamplerVal
  | numLit (m : ℕ)
  | traceObj
  | modelObj
deriving DecidableEq

inductive Kw
  | positional
  | tune
  | samples
  | size
  | model
deriving DecidableEq

structure SamplerArg where
  kw : Kw
  val : SamplerVal
deriving DecidableEq

structure SamplerCall where
  fn : SamplerFn
  args : List SamplerArg
deriving DecidableEq

/-- The eight sampler invocations of the notebook, in cell order:
`pm.sample(500)` twice, `pm.sample(2500)`,
`pm.sample_ppc(trace, samples=2000)`, `pm.sample(2000, tune=500)`,
`pm.sample_ppc(unpooled_trace, model=FE_unpooled, size=1000)`,
`pm.sample(2000, tune=2000)`,
`pm.sample_ppc(pooled_trace, model=RE_pooled, size=1000)`. -/
def samplerCalls : List SamplerCall :=
  [⟨.sample, [⟨.positional, .numLit 500⟩]⟩,
   ⟨.sample, [⟨.positional, .numLit 500⟩]⟩,
   ⟨.sample, [⟨.positional, .numLit 2500⟩]⟩,
   ⟨.sample_ppc, [⟨.positional, .traceObj⟩, ⟨.samples, .numLit 2000⟩]⟩,
   ⟨.sample, [⟨.positional, .numLit 2000⟩, ⟨.tune, .numLit 500⟩]⟩,
   ⟨.sample_ppc, [⟨.positional, .traceObj⟩, ⟨.model, .modelObj⟩,
     ⟨.size, .numLit 1000⟩]⟩,
   ⟨.sample, [⟨.positional, .numLit 2000⟩, ⟨.tune, .numLit 2000⟩]⟩,
   ⟨.sample_ppc, [⟨.positional, .traceObj⟩, ⟨.model, .modelObj⟩,
     ⟨.size, .numLit 1000⟩]⟩]

/-- An argument is allowed when it is one of the notebook's fixed numeric
literals or the trace/model object itself. -/
def argAllowed : SamplerVal → Bool
  | .numLit m => m == 500 || m == 2500 || m == 2000 || m == 1000
  | .traceObj => true
  | .modelObj => true

/-! ## Transcription of the notebook's cells as steps

Each modeling section of the notebook is a list of steps.  A step records
its pipeline phase, the Python names it binds (`produces`), the names it
reads, the data arrays a model defined in it observes, and its externally
observable effects.  Python names are encoded as natural numbers via the
`v...` constants below. -/

inductive StepKind
  | genData
  | defModel
  | callSampler
  | plotOrPrint
  | setup
deriving DecidableEq

inductive Effect
  | printText
  | renderPlot
  | fileRead
  | fileWrite
  | networkOpen
  | cliDefine
deriving DecidableEq

structure Step where
  kind : StepKind
  produces : List ℕ
  reads : List ℕ
  observes : List ℕ
  effects : List Effect
deriving DecidableEq

def vNormalSample : ℕ := 0
def vRandomNormal : ℕ := 1
def vMuNode : ℕ := 2
def vSdNode : ℕ := 3
def vPredNode : ℕ := 4
def vTraceNormal : ℕ := 5
def vMakeOLSFn : ℕ := 6
def vXTrain : ℕ := 7
def vYTrain : ℕ := 8
def vOLSModel : ℕ := 9
def vTrace : ℕ := 10
def vPpc : ℕ := 11
def vYHatMean : ℕ := 12
def vNumGroups : ℕ := 13
def vGenHierFn : ℕ := 14
def vRMSEFn : ℕ := 15
def vX : ℕ := 16
def vY : ℕ := 17
def vGroupId : ℕ := 18
def vXShared : ℕ := 19
def vYShared : ℕ := 20
def vFEUnpooled : ℕ := 21
def vUnpooledTrace : ℕ := 22
def vUnpooledSample : ℕ := 23
def vYHatUnpooled : ℕ := 24
def vUnpooledRMSE : ℕ := 25
def vREPooled : ℕ := 26
def vPooledTrace : ℕ := 27
def vPooledSample : ℕ := 28
def vYHatPooled : ℕ := 29
def vPooledRMSE : ℕ := 30

/-- Section "Priors far from true data, expansive priors" (cells 19-23):
generate `normal_sample`; define model `random_normal` observing it;
print attributes of `mu`; `pm.sample(500)`; `pm.traceplot`. -/
def sectionExpansive : List Step :=
  [⟨.genData, [vNormalSample], [], [], []⟩,
   ⟨.defModel, [vRandomNormal, vMuNode, vSdNode, vPredNode],
     [vNormalSample], [vNormalSample], []⟩,
   ⟨.plotOrPrint, [], [vMuNode], [], [.printText]⟩,
   ⟨.callSampler, [vTraceNormal], [vRandomNormal], [], []⟩,
   ⟨.plotOrPrint, [], [vTraceNormal], [], [.renderPlot]⟩]

/-- Section "Priors far from true data, restrictive priors" (cells 25-28). -/
def sectionRestrictive : List Step :=
  [⟨.genData, [vNormalSample], [], [], []⟩,
   ⟨.defModel, [vRandomNormal, vMuNode, vSdNode, vPredNode],
     [vNormalSample], [vNormalSample], []⟩,
   ⟨.callSampler, [vTraceNormal], [vRandomNormal], [], []⟩,
   ⟨.plotOrPrint, [], [vTraceNormal], [], [.renderPlot]⟩]

/-- Section "Linear Regression" (cells 30-38): define
`make_random_OLS_data`; generate `(X_train, y_train)`; scatter-plot the
raw data; define model `OLS` observing `y_train`; `pm.sample(2500)`;
`pm.traceplot`; `pm.sample_ppc(trace, samples=2000)` with a shape print;
compute `y_hat_mean` and plot fit. -/
def sectionOLS : List Step :=
  [⟨.setup, [vMakeOLSFn], [], [], []⟩,
   ⟨.genData, [vXTrain, vYTrain], [vMakeOLSFn], [], []⟩,
   ⟨.plotOrPrint, [], [vXTrain, vYTrain], [], [.renderPlot]⟩,
   ⟨.defModel, [vOLSModel], [vXTrain, vYTrain], [vYTrain], []⟩,
   ⟨.callSampler, [vTrace], [vOLSModel], [], []⟩,
   ⟨.plotOrPrint, [], [vTrace], [], [.renderPlot]⟩,
   ⟨.callSampler, [vPpc], [vOLSModel, vTrace], [], [.printText]⟩,
   ⟨.plotOrPrint, [vYHatMean], [vPpc, vXTrain, vYTrain], [], [.renderPlot]⟩]

/-- Section "Hierarchical Linear Model" (cells 40-52): define
`generate_hierarchical_data` and `RMSE`, generate `(X, Y, group_id)`
(printing group-level parameters); wrap `X`, `Y` in theano shared
variables; define `FE_unpooled` observing `Y`; `pm.sample(2000, tune=500)`;
traceplot; `pm.sample_ppc` for the unpooled model; print unpooled RMSE;
define `RE_pooled` observing `Y_shared`; `pm.sample(2000, tune=2000)`;
traceplot; `pm.sample_ppc` for the pooled model and print both RMSEs. -/
def sectionHierarchical : List Step :=
  [⟨.genData, [vNumGroups, vGenHierFn, vRMSEFn, vX, vY, vGroupId], [],
     [], [.printText]⟩,
   ⟨.setup, [vXShared, vYShared], [vX, vY], [], []⟩,
   ⟨.defModel, [vFEUnpooled], [vNumGroups, vXShared, vGroupId, vY],
     [vY], []⟩,
   ⟨.callSampler, [vUnpooledTrace], [vFEUnpooled], [], []⟩,
   ⟨.plotOrPrint, [], [vUnpooledTrace], [], [.renderPlot]⟩,
   ⟨.callSampler, [vUnpooledSample, vYHatUnpooled],
     [vUnpooledTrace, vFEUnpooled], [], []⟩,
   ⟨.plotOrPrint, [vUnpooledRMSE], [vRMSEFn, vY, vYHatUnpooled], [],
     [.printText]⟩,
   ⟨.defModel, [vREPooled], [vNumGroups, vXShared, vGroupId, vYShared],
     [vYShared], []⟩,
   ⟨.callSampler, [vPooledTrace], [vREPooled], [], []⟩,
   ⟨.plotOrPrint, [], [vPooledTrace], [], [.renderPlot]⟩,
   ⟨.callSampler, [vPooledSample, vYHatPooled, vPooledRMSE],
     [vPooledTrace, vREPooled, vRMSEFn, vY, vUnpooledRMSE], [],
     [.printText]⟩]

def modelingSections : List (List Step) :=
  [sectionExpansive, sectionRestrictive, sectionOLS, sectionHierarchical]

/-- Phase of a step in the claimed pipeline
"generate data, define model, call sampler, plot/print". -/
def phaseIndex : StepKind → ℕ
  | .setup => 0
  | .genData => 0
  | .defModel => 1
  | .callSampler => 2
  | .plotOrPrint => 3

/-- Checks that consecutive steps never move to an earlier phase. -/
def phaseOrderedB : List Step → Bool
  | [] => true
  | [_] => true
  | a :: b :: rest =>
      Nat.ble (phaseIndex a.kind) (phaseIndex b.kind)
        && phaseOrderedB (b :: rest)

/-- The steps of a section occur in the fixed four-phase order. -/
def phaseOrdered (sec : List Step) : Prop := phaseOrderedB sec = true

instance (sec : List Step) : Decidable (phaseOrdered sec) :=
  inferInstanceAs (Decidable (phaseOrderedB sec = true))

/-- Every name a step reads was produced by an earlier step of the section
(starting from the environment `env`). -/
def forwardReadsFrom (env : List ℕ) : List Step → Bool
  | [] => true
  | s :: rest =>
      s.reads.all env.contains && forwardReadsFrom (env ++ s.produces) rest

/-- Once a model observes a data array, no later step of the section
rebinds that array. -/
def noLaterWriteOK : List Step → Bool
  | [] => true
  | s :: rest =>
      s.observes.all (fun v => rest.all fun t => !(t.produces.contains v))
        && noLaterWriteOK rest

/-- Effects of the cells before the first modeling section: the displayed
reprs of cells 4 and 8, the prior histogram of cell 14 and the print of
cell 17. -/
def introEffects : List Effect :=
  [.printText, .printText, .renderPlot, .printText]

/-- All externally observable effects of the notebook, in cell order. -/
def notebookEffects : List Effect :=
  introEffects ++ (modelingSections.map fun sec =>
    (sec.map Step.effects).flatten).flatten

/-- Plotting / printing as the notebook performs it: an effect is emitted
and the program state is returned unchanged. -/
def render {σ : Type} (e : Effect) (s : σ) : σ × Effect := (s, e)

/-! ## Cell execution with uncaught errors

The notebook contains no `try`/`except`: a cell either returns the next
state or raises.  `runHalt` is the semantics of running a list of cells in
order — execution stops at the first raising cell, reporting the error
and the repository state exactly as the preceding cells left it. -/

def runHalt {σ ε : Type} : List (σ → Except ε σ) → σ → σ × Option ε
  | [], s => (s, none)
  | c :: rest, s =>
    match c s with
    | Except.ok s' => runHalt rest s'
    | Except.error e => (s, some e)

/-! ## Helper lemmas about RMSE -/

theorem zipWith_sub_sq_comm :
    ∀ (l₁ l₂ : List ℝ),
      List.zipWith (fun a b => (b - a) ^ 2) l₁ l₂ =
        List.zipWith (fun a b => (b - a) ^ 2) l₂ l₁ := by
  intro l₁
  induction l₁ with
  | nil => intro l₂; cases l₂ <;> rfl
  | cons a l ih =>
    intro l₂
    cases l₂ with
    | nil => rfl
    | cons b l₂ =>
      simp only [List.zipWith_cons_cons, ih]
      congr 1
      ring

theorem zipWith_sub_sq_self_sum :
    ∀ l : List ℝ, (List.zipWith (fun a b => (b - a) ^ 2) l l).sum = 0 := by
  intro l
  induction l with
  | nil => rfl
  | cons a l ih => simp [ih]

theorem RMSE_self (l : List ℝ) : RMSE l l = 0 := by
  rw [RMSE, zipWith_sub_sq_self_sum, zero_div, Real.sqrt_zero]

theorem zipWith_sub_sq_eq_map_zip :
    ∀ (l₁ l₂ : List ℝ),
      List.zipWith (fun a b => (b - a) ^ 2) l₁ l₂ =
        (l₁.zip l₂).map fun p => (p.2 - p.1) ^ 2 := by
  intro l₁
  induction l₁ with
  | nil => intro l₂; cases l₂ <;> rfl
  | cons a l ih =>
    intro l₂
    cases l₂ with
    | nil => rfl
    | cons b l₂ => simp [ih]

theorem RMSE_eq_ref (Y y_hat : List ℝ) : RMSE Y y_hat = RMSE_ref Y y_hat := by
  rw [RMSE, RMSE_ref, mean_ref, zipWith_sub_sq_eq_map_zip]

/-! ## Claim theorems -/

/-- C1 counterexample: contrary to the claim that the repository contains
no pure function whose result could be checked against a reference
definition, the repository-defined pure functions `subtract` and `RMSE`
evaluate to reference-checkable results at concrete inputs. -/
theorem deterministic_logic_exists :
    subtract 7 2 = 5 ∧ RMSE [2, 4] [2, 4] = 0 := by
  constructor
  · rw [subtract]; norm_num
  · exact RMSE_self _

/-- C1 (amended): the repository does define original deterministic,
reimplementable logic — `subtract` and `RMSE` are pure functions whose
results agree everywhere with reference definitions written independently
from the spec's formulas. -/
theorem pure_functions_match_reference :
    (∀ Y y_hat : List ℝ, RMSE Y y_hat = RMSE_ref Y y_hat) ∧
    (∀ x y : ℝ, subtract x y = x - y) :=
  ⟨fun Y y_hat => RMSE_eq_ref Y y_hat, fun _ _ => rfl⟩

/-- C2: in `generate_hierarchical_data`, with the random draws modelled
as inputs, row `i*n + j` of group `i` satisfies
`Y = beta_i * X + intercept_i` exactly, where the `X` entry is the
per-observation draw `indiv_epsilon` itself — the returned data carries
no additive individual-level noise. -/
theorem hierarchical_rows_exact_linear
    (num_obs_per_group num_groups : ℕ) (pI pB pS : ℝ)
    (interceptDraw betaDraw : ℕ → ℝ) (eps : ℕ → ℕ → ℝ) (i j : ℕ)
    (hi : i < num_groups) (hj : j < num_obs_per_group) :
    (generate_hierarchical_data num_obs_per_group num_groups pI pB pS
        interceptDraw betaDraw eps).1[i * num_obs_per_group + j]? =
      some (eps i j) ∧
    (generate_hierarchical_data num_obs_per_group num_groups pI pB pS
        interceptDraw betaDraw eps).2.1[i * num_obs_per_group + j]? =
      some (betaDraw i * eps i j + interceptDraw i) := by
  rw [generate_hierarchical_data]
  refine ⟨getElem?_blocks _ _ _ i j hi hj, ?_⟩
  rw [getElem?_blocks _ _ _ i j hi hj, group_params_getD _ _ _ i hi]

/-- C2 witness: instance with 2 groups of 2 observations, constant draws
`intercept = 5`, `beta = 7`, `eps = 11`, at group `i = 1`, row `j = 1`. -/
theorem hierarchical_rows_exact_linear_witness :
    1 < 2 ∧ 1 < 2 ∧
    ((generate_hierarchical_data 2 2 0 0 0 (fun _ => 5) (fun _ => 7)
        (fun _ _ => 11)).1[1 * 2 + 1]? = some 11 ∧
      (generate_hierarchical_data 2 2 0 0 0 (fun _ => 5) (fun _ => 7)
        (fun _ _ => 11)).2.1[1 * 2 + 1]? = some (7 * 11 + 5)) :=
  ⟨by decide, by decide,
    hierarchical_rows_exact_linear 2 2 0 0 0 (fun _ => 5) (fun _ => 7)
      (fun _ _ => 11) 1 1 (by decide) (by decide)⟩

/-- C3: `make_random_OLS_data(num_obs, intercept, beta)`, with the two
normal draws modelled as input lists of length `num_obs`, returns the
pair `(X, y)` with both components of length `num_obs` and
`y[i] = intercept + beta * X[i] + epsilon[i]` for every `i < num_obs`. -/
theorem make_random_OLS_data_spec (num_obs : ℕ) (intercept beta : ℝ)
    (X epsilon : List ℝ) (hX : X.length = num_obs)
    (he : epsilon.length = num_obs) :
    (make_random_OLS_data num_obs intercept beta X epsilon).1 = X ∧
    (make_random_OLS_data num_obs intercept beta X epsilon).1.length
      = num_obs ∧
    (make_random_OLS_data num_obs intercept beta X epsilon).2.length
      = num_obs ∧
    ∀ i, i < num_obs →
      (make_random_OLS_data num_obs intercept beta X epsilon).2.getD i 0 =
        intercept + beta * X.getD i 0 + epsilon.getD i 0 := by
  refine ⟨rfl, hX, ?_, ?_⟩
  · rw [make_random_OLS_data]
    simp [hX, he]
  · intro i hi
    rw [make_random_OLS_data]
    exact getD_zipWith _ 0 X epsilon i (hX ▸ hi) (he ▸ hi)

/-- C3 witness: instance with `num_obs = 2`, `intercept = 1`, `beta = 2`,
draws `X = [1, 3]` and `epsilon = [0, 1]`. -/
theorem make_random_OLS_data_spec_witness :
    ([1, 3] : List ℝ).length = 2 ∧ ([0, 1] : List ℝ).length = 2 ∧
    ((make_random_OLS_data 2 1 2 [1, 3] [0, 1]).1 = [1, 3] ∧
      (make_random_OLS_data 2 1 2 [1, 3] [0, 1]).1.length = 2 ∧
      (make_random_OLS_data 2 1 2 [1, 3] [0, 1]).2.length = 2 ∧
      ∀ i, i < 2 →
        (make_random_OLS_data 2 1 2 [1, 3] [0, 1]).2.getD i 0 =
          1 + 2 * ([1, 3] : List ℝ).getD i 0 +
            ([0, 1] : List ℝ).getD i 0) :=
  ⟨rfl, rfl, make_random_OLS_data_spec 2 1 2 [1, 3] [0, 1] rfl rfl⟩

/-- C4: for `generate_hierarchical_data` with `n ≥ 1` observations per
group and `g` groups, the three returned arrays all have `g * n` rows
(shape `(g*n, 1)` embedded as flat lists), and every row `r` of
`group_id` holds the integer `r / n`, which lies strictly below `g` —
so each group labels exactly the `n` consecutive rows of its block. -/
theorem hierarchical_shapes_group_id
    (num_obs_per_group num_groups : ℕ) (pI pB pS : ℝ)
    (interceptDraw betaDraw : ℕ → ℝ) (eps : ℕ → ℕ → ℝ)
    (hn : 1 ≤ num_obs_per_group) :
    (generate_hierarchical_data num_obs_per_group num_groups pI pB pS
        interceptDraw betaDraw eps).1.length
      = num_groups * num_obs_per_group ∧
    (generate_hierarchical_data num_obs_per_group num_groups pI pB pS
        interceptDraw betaDraw eps).2.1.length
      = num_groups * num_obs_per_group ∧
    (generate_hierarchical_data num_obs_per_group num_groups pI pB pS
        interceptDraw betaDraw eps).2.2.length
      = num_groups * num_obs_per_group ∧
    ∀ r, r < num_groups * num_obs_per_group →
      (generate_hierarchical_data num_obs_per_group num_groups pI pB pS
          interceptDraw betaDraw eps).2.2[r]? =
        some ((r / num_obs_per_group : ℕ) : ℝ) ∧
      r / num_obs_per_group < num_groups := by
  rw [generate_hierarchical_data]
  refine ⟨length_blocks _ _ _, length_blocks _ _ _, length_blocks _ _ _, ?_⟩
  intro r hr
  have hj : r % num_obs_per_group < num_obs_per_group :=
    Nat.mod_lt r hn
  have hi : r / num_obs_per_group < num_groups :=
    (Nat.div_lt_iff_lt_mul hn).mpr hr
  refine ⟨?_, hi⟩
  have key := getElem?_blocks num_obs_per_group
    (fun i _ => (i : ℝ)) num_groups (r / num_obs_per_group)
    (r % num_obs_per_group) hi hj
  have hr' : r / num_obs_per_group * num_obs_per_group
      + r % num_obs_per_group = r := by
    rw [Nat.mul_comm]
    exact Nat.div_add_mod r num_obs_per_group
  rw [hr'] at key
  exact key

/-- C4 witness: instance with 2 groups of 2 observations and constant
draws, at `n = 2 ≥ 1`. -/
theorem hierarchical_shapes_group_id_witness :
    1 ≤ 2 ∧
    ((generate_hierarchical_data 2 2 0 0 0 (fun _ => 5) (fun _ => 7)
        (fun _ _ => 11)).1.length = 2 * 2 ∧
      (generate_hierarchical_data 2 2 0 0 0 (fun _ => 5) (fun _ => 7)
        (fun _ _ => 11)).2.1.length = 2 * 2 ∧
      (generate_hierarchical_data 2 2 0 0 0 (fun _ => 5) (fun _ => 7)
        (fun _ _ => 11)).2.2.length = 2 * 2 ∧
      ∀ r, r < 2 * 2 →
        (generate_hierarchical_data 2 2 0 0 0 (fun _ => 5) (fun _ => 7)
          (fun _ _ => 11)).2.2[r]? = some ((r / 2 : ℕ) : ℝ) ∧
        r / 2 < 2) :=
  ⟨by decide,
    hierarchical_shapes_group_id 2 2 0 0 0 (fun _ => 5) (fun _ => 7)
      (fun _ _ => 11) (by decide)⟩

/-- C5: for equal-length real vectors, `RMSE` is symmetric in its two
arguments, non-negative, and zero on identical vectors. -/
theorem RMSE_symm_nonneg_zero (Y y_hat : List ℝ)
    (h : Y.length = y_hat.length) :
    RMSE Y y_hat = RMSE y_hat Y ∧ 0 ≤ RMSE Y y_hat ∧ RMSE Y Y = 0 := by
  refine ⟨?_, Real.sqrt_nonneg _, RMSE_self Y⟩
  rw [RMSE, RMSE, zipWith_sub_sq_comm]

/-- C5 witness: instance at `Y = [1, 2]`, `y_hat = [2, 1]`. -/
theorem RMSE_symm_nonneg_zero_witness :
    ([1, 2] : List ℝ).length = ([2, 1] : List ℝ).length ∧
    (RMSE [1, 2] [2, 1] = RMSE [2, 1] [1, 2] ∧
      0 ≤ RMSE [1, 2] [2, 1] ∧ RMSE [1, 2] [1, 2] = 0) :=
  ⟨rfl, RMSE_symm_nonneg_zero [1, 2] [2, 1] rfl⟩

/-- C6: the notebook contains no exception handler, so under the cell
execution semantics `runHalt`, an error raised in a cell propagates
uncaught: execution halts at that cell, the error is reported, later
cells never run, and the repository state is exactly the state the
preceding cells produced, unmodified by the failing cell. -/
theorem cells_no_exception_handling {σ ε : Type}
    (pre post : List (σ → Except ε σ)) (c : σ → Except ε σ)
    (s s' : σ) (e : ε) (h1 : runHalt pre s = (s', none))
    (h2 : c s' = Except.error e) :
    runHalt (pre ++ c :: post) s = (s', some e) := by
  induction pre generalizing s with
  | nil =>
    rw [runHalt] at h1
    have hs : s = s' := congrArg Prod.fst h1
    subst hs
    rw [List.nil_append, runHalt, h2]
  | cons p pre ih =>
    rw [runHalt] at h1
    rw [List.cons_append, runHalt]
    cases hps : p s with
    | ok s₂ =>
      rw [hps] at h1
      exact ih s₂ h1
    | error e' =>
      rw [hps] at h1
      exact absurd (congrArg Prod.snd h1) (by simp)

/-- C6 witness: a two-cell run where the second cell raises: the run
halts with the error and the state the first cell produced. -/
theorem cells_no_exception_handling_witness :
    runHalt [fun s : ℕ => (Except.ok (s + 1) : Except ℕ ℕ)] 0
      = (1, none) ∧
    (fun _ : ℕ => (Except.error 7 : Except ℕ ℕ)) 1 = Except.error 7 ∧
    runHalt ([fun s : ℕ => (Except.ok (s + 1) : Except ℕ ℕ)] ++
        (fun _ : ℕ => (Except.error 7 : Except ℕ ℕ)) ::
          [fun s : ℕ => (Except.ok (s + 5) : Except ℕ ℕ)]) 0
      = (1, some 7) :=
  ⟨rfl, rfl,
    cells_no_exception_handling
      [fun s : ℕ => (Except.ok (s + 1) : Except ℕ ℕ)]
      [fun s : ℕ => (Except.ok (s + 5) : Except ℕ ℕ)]
      (fun _ : ℕ => (Except.error 7 : Except ℕ ℕ)) 0 1 7 rfl rfl⟩

/-- C7: every `pm.sample` / `pm.sample_ppc` invocation transcribed from
the notebook passes only fixed numeric literals (500, 2500, 2000, 1000,
covering the positional draw counts and the `tune`/`samples`/`size`
keywords) besides the trace and model objects themselves. -/
theorem sampler_calls_literal_args :
    (samplerCalls.all fun c => c.args.all fun a => argAllowed a.val)
      = true := by
  decide

/-- C8 counterexample: the claimed fixed phase order
"generate data, define model, call sampler, plot/print" fails on the
transcribed cell sequences: the Linear Regression section scatter-plots
the raw data before the model is defined and calls `pm.sample_ppc` after
`pm.traceplot`, and the expansive-priors and hierarchical sections also
interleave sampler calls after plots or prints. -/
theorem phase_order_violation :
    sectionOLS ∈ modelingSections ∧ ¬ phaseOrdered sectionOLS ∧
    ¬ phaseOrdered sectionExpansive ∧
    ¬ phaseOrdered sectionHierarchical ∧
    phaseOrdered sectionRestrictive := by
  decide

/-- C8 (amended): in every modeling section the data flow is strictly
forward — every name a step reads was produced by an earlier step of the
section, so each model definition follows the generation of the data it
observes and each sampler call follows its model's definition — and once
a model has observed a data array, no later step of that section rebinds
that array; plots, prints and posterior-predictive sampler calls are
interleaved, so the four phases are not contiguous blocks. -/
theorem sections_forward_dataflow :
    (modelingSections.all fun sec =>
      forwardReadsFrom [] sec && noLaterWriteOK sec) = true := by
  decide

/-- C9: the deterministic variable `Delta` is the fixed function
`subtract` of the stochastic variables `U_1` and `U_2`; `subtract`
computes `x - y` and yields equal outputs on equal inputs. -/
theorem subtract_deterministic :
    (∀ x y : ℝ, subtract x y = x - y) ∧
    (∀ u1 u2 : ℝ, Delta u1 u2 = subtract u1 u2) ∧
    (∀ x₁ y₁ x₂ y₂ : ℝ, x₁ = x₂ → y₁ = y₂ →
      subtract x₁ y₁ = subtract x₂ y₂) :=
  ⟨fun _ _ => rfl, fun _ _ => rfl, by
    intro x₁ y₁ x₂ y₂ hx hy
    rw [hx, hy]⟩

/-- C9 witness: two evaluations of `subtract` at the equal concrete
inputs `(3, 1)` produce `3 - 1` and agree. -/
theorem subtract_deterministic_witness :
    subtract 3 1 = 3 - 1 ∧ Delta 3 1 = subtract 3 1 ∧
    subtract 3 1 = subtract 3 1 :=
  ⟨subtract_deterministic.1 3 1, subtract_deterministic.2.1 3 1,
    subtract_deterministic.2.2 3 1 3 1 rfl rfl⟩

/-- C10: every externally observable effect of the transcribed notebook
is printed text or a rendered plot — no file read or write, no network
connection, no command-line surface — and the plotting/printing operation
`render` leaves the program state unchanged. -/
theorem effects_only_print_and_plot :
    ((notebookEffects.all fun e =>
        e == Effect.printText || e == Effect.renderPlot) = true) ∧
    ∀ (σ : Type) (e : Effect) (s : σ), (render e s).1 = s :=
  ⟨by decide, fun _ _ _ => rfl⟩

end ODSCNotebook
